import Mathlib

/-!
Verification of the vanus per-subscription trigger
(src/internal/trigger/trigger/trigger.go) against its specification.

The Go code is shallowly embedded: every worker loop becomes a pure Lean
function from its inputs (queue contents, filter outcomes, sink responses)
to the trace of observable actions it performs (offset-tracker calls, sink
sends, pauses, error logs), and lifecycle operations become functions on
the trigger state.  Durations are modelled in abstract integer time units.
-/

namespace Vanus

/-- Lifecycle states of a trigger (the TriggerState constants of trigger.go). -/
inductive TriggerState where
  | created
  | pending
  | running
  | sleep
  | paused
  | stopped
  | destroyed
deriving DecidableEq, Repr

/-- Offset position metadata carried by an event (info.OffsetInfo). -/
structure OffsetInfo where
  eventLogID : Nat
  offset : Nat
deriving DecidableEq, Repr

/-- An event record (info.EventRecord): a delivery-ready event payload plus
its offset position.  The payload is opaque; a Nat stands for it. -/
structure EventRecord where
  event : Nat
  offsetInfo : OffsetInfo
deriving DecidableEq, Repr

/-- Classification of one ceClient.Send call by ce.IsACK on its returned
error: an acknowledgment, or a rejection carrying the (non-ACK, hence
non-nil) error, modelled as a Nat code. -/
inductive AttemptResult where
  | ack
  | reject (err : Nat)
deriving DecidableEq, Repr

/-- Observable actions performed by the pipeline workers:
offsetManager.EventReceive, offsetManager.EventCommit, one ceClient.Send
call under a per-attempt timeout together with its classified result, one
time.Sleep of the given duration, and one log.Error of a send failure. -/
inductive Action where
  | receive (pos : OffsetInfo)
  | commit (pos : OffsetInfo)
  | sinkSend (timeout : Nat) (res : AttemptResult)
  | pause (d : Nat)
  | logError (err : Nat)
deriving DecidableEq, Repr

/-- True of a sink send action. -/
def isSend : Action → Bool
  | Action.sinkSend _ _ => true
  | _ => false

/-- True of a sink send action whose result was a rejection. -/
def isRejectSend : Action → Bool
  | Action.sinkSend _ (AttemptResult.reject _) => true
  | _ => false

/-- True of a pause action. -/
def isPause : Action → Bool
  | Action.pause _ => true
  | _ => false

/-- True of an EventCommit action. -/
def isCommit : Action → Bool
  | Action.commit _ => true
  | _ => false

/-- True of an EventReceive action. -/
def isReceive : Action → Bool
  | Action.receive _ => true
  | _ => false

/-- Trigger configuration (package trigger Config).  MaxRetryTimes is a Go
int, so it may be negative; durations are abstract Nat time units. -/
structure Config where
  filterProcessSize : Nat
  sendProcessSize : Nat
  bufferSize : Nat
  maxRetryTimes : Int
  retryPeriod : Nat
  sendTimeOut : Nat
deriving DecidableEq, Repr

/-- The loop of retrySendEvent, from a given value of the retryTimes
counter, with the number of remaining iterations (maxRetryTimes minus
retryTimes) as fuel and the current value of the err variable threaded
through.  Each iteration increments retryTimes, invokes the sink under a
WithTimeout(ctx, sendTimeOut) context (the sink function gives the
classified result of attempt number retryTimes), and on a rejection logs
and sleeps retryPeriod before re-testing the loop condition; on an
acknowledgment it returns nil at once.  When the condition fails it
returns the last err. -/
def retrySendLoop (sendTimeOut retryPeriod : Nat) (sink : Nat → AttemptResult) :
    Nat → Nat → Option Nat → List Action × Option Nat
  | _, 0, lastErr => ([], lastErr)
  | retryTimes, remaining + 1, _ =>
    match sink (retryTimes + 1) with
    | AttemptResult.ack => ([Action.sinkSend sendTimeOut AttemptResult.ack], none)
    | AttemptResult.reject e =>
      let p := retrySendLoop sendTimeOut retryPeriod sink (retryTimes + 1) remaining (some e)
      (Action.sinkSend sendTimeOut (AttemptResult.reject e) ::
        Action.pause retryPeriod :: p.1, p.2)

/-- retrySendEvent of trigger.go: retryTimes starts at 0, err starts nil,
and the loop runs while retryTimes < config.MaxRetryTimes, so for
Int.toNat maxRetryTimes iterations.  Returns the trace of sink sends and
pauses, and the returned error (none = nil). -/
def retrySendEvent (cfg : Config) (sink : Nat → AttemptResult) :
    List Action × Option Nat :=
  retrySendLoop cfg.sendTimeOut cfg.retryPeriod sink 0 cfg.maxRetryTimes.toNat none

example :
    retrySendEvent ⟨1, 1, 0, 3, 50, 100⟩ (fun _ => AttemptResult.reject 7) =
      ([Action.sinkSend 100 (AttemptResult.reject 7), Action.pause 50,
        Action.sinkSend 100 (AttemptResult.reject 7), Action.pause 50,
        Action.sinkSend 100 (AttemptResult.reject 7), Action.pause 50], some 7) := by
  decide

example :
    retrySendEvent ⟨1, 1, 0, 3, 50, 100⟩
        (fun k => if k = 2 then AttemptResult.ack else AttemptResult.reject 7) =
      ([Action.sinkSend 100 (AttemptResult.reject 7), Action.pause 50,
        Action.sinkSend 100 AttemptResult.ack], none) := by
  decide

example : retrySendEvent ⟨1, 1, 0, 0, 50, 100⟩ (fun _ => AttemptResult.reject 7) =
    ([], none) := by decide

example : retrySendEvent ⟨1, 1, 0, -2, 50, 100⟩ (fun _ => AttemptResult.reject 7) =
    ([], none) := by decide

/-- The body of runEventSend for one event dequeued from sendCh: run the
retry loop, on a non-nil error log.Error the failure, then commit the
event position with the offset manager.  The worker returns nothing, so
no error propagates to any caller. -/
def runEventSendOne (cfg : Config) (sink : Nat → AttemptResult) (ev : EventRecord) :
    List Action :=
  let p := retrySendEvent cfg sink
  p.1 ++
    (match p.2 with
     | some e => [Action.logError e]
     | none => []) ++
    [Action.commit ev.offsetInfo]

/-- The runEventSend worker over the whole (finite) content of sendCh;
sinkOf gives each event its sequence of classified sink responses. -/
def runEventSend (cfg : Config) (sinkOf : EventRecord → Nat → AttemptResult) :
    List EventRecord → List Action
  | [] => []
  | ev :: rest => runEventSendOne cfg (sinkOf ev) ev ++ runEventSend cfg sinkOf rest

/-- Result of filter.FilterEvent on one event. -/
inductive FilterResult where
  | passFilter
  | failFilter
deriving DecidableEq, Repr

/-- The runEventProcess worker over the whole (finite) content of eventCh:
for each dequeued event, when the filter predicate fails the event
position is committed and the event dropped; otherwise the event is
forwarded unchanged onto sendCh.  Returns the trace of actions and the
list of forwarded events in order. -/
def runEventProcess (f : EventRecord → FilterResult) :
    List EventRecord → List Action × List EventRecord
  | [] => ([], [])
  | ev :: rest =>
    let p := runEventProcess f rest
    match f ev with
    | FilterResult.failFilter => (Action.commit ev.offsetInfo :: p.1, p.2)
    | FilterResult.passFilter => (p.1, ev :: p.2)

/-- Outcome of EventArrived once its select statement fires: the event was
sent on eventCh (returning nil), or ctx.Done fired first (returning
ctx.Err, a Cancelled condition carried as a Nat code), or neither channel
is ready and the call is still blocked. -/
inductive ArrivedResult where
  | enqueued (q : List EventRecord) (acts : List Action)
  | cancelled (err : Nat)
  | blocked
deriving DecidableEq, Repr

/-- EventArrived of trigger.go.  The bounded channel eventCh is a list q
with capacity cap; ctxErr is some e when the supplied context is already
cancelled with error e.  If the buffer has space the send branch fires:
the event is enqueued and its receive position immediately registered
with the offset manager.  Otherwise, if the context is cancelled the
ctx.Done branch fires and the call fails with ctx.Err having enqueued
nothing and registered nothing; if not, the call stays blocked. -/
def eventArrived (q : List EventRecord) (cap : Nat) (ctxErr : Option Nat)
    (ev : EventRecord) : ArrivedResult :=
  if q.length < cap then
    ArrivedResult.enqueued (q ++ [ev]) [Action.receive ev.offsetInfo]
  else
    match ctxErr with
    | some e => ArrivedResult.cancelled e
    | none => ArrivedResult.blocked

/-- One atomic step of the two goroutines handling a single accepted
event: the channel send of EventArrived, the worker's channel take, the
producer's EventReceive registration and the worker's EventCommit. -/
inductive Step where
  | chanSend
  | chanTake
  | receiveReg (pos : OffsetInfo)
  | commitReg (pos : OffsetInfo)
deriving DecidableEq, Repr

/-- Program order of the producer inside EventArrived once the select
chose the send branch: the channel send of line 85, then the EventReceive
call of line 86. -/
def producerSteps (ev : EventRecord) : List Step :=
  [Step.chanSend, Step.receiveReg ev.offsetInfo]

/-- Program order of the filter worker dequeuing that event when the
filter predicate fails: the channel take of line 124, then the
EventCommit of line 129. -/
def filterRejectSteps (ev : EventRecord) : List Step :=
  [Step.chanTake, Step.commitReg ev.offsetInfo]

/-- tr is an order-preserving interleaving (merge) of xs and ys. -/
def isMerge : List Step → List Step → List Step → Bool
  | xs, ys, [] => xs.isEmpty && ys.isEmpty
  | xs, ys, t :: ts =>
    (match xs with
     | x :: xs2 => (x == t) && isMerge xs2 ys ts
     | [] => false) ||
    (match ys with
     | y :: ys2 => (y == t) && isMerge xs ys2 ts
     | [] => false)

/-- The channel discipline: a take only fires after an unconsumed send,
so at every point the takes seen never exceed the sends seen. -/
def chanOrdered : List Step → Nat → Bool
  | [], _ => true
  | Step.chanSend :: ts, sent => chanOrdered ts (sent + 1)
  | Step.chanTake :: ts, sent => decide (0 < sent) && chanOrdered ts (sent - 1)
  | _ :: ts, sent => chanOrdered ts sent

/-- A possible execution of trigger.go for one event accepted by
EventArrived concurrently with a filter worker whose predicate rejects
it: any interleaving of the two goroutines' program orders in which the
dequeue does not overtake the enqueue.  Nothing orders the producer's
EventReceive against the worker's EventCommit. -/
def validExecution (ev : EventRecord) (tr : List Step) : Bool :=
  isMerge (producerSteps ev) (filterRejectSteps ev) tr && chanOrdered tr 0

/-- The schedule in which the producer is descheduled between its channel
send and its EventReceive call while the filter worker dequeues and
commits. -/
def racyTrace : List Step :=
  [Step.chanSend, Step.chanTake, Step.commitReg ⟨1, 2⟩, Step.receiveReg ⟨1, 2⟩]

/-- True of a commitReg step. -/
def isCommitStep : Step → Bool
  | Step.commitReg _ => true
  | _ => false

/-- True of a receiveReg step. -/
def isReceiveStep : Step → Bool
  | Step.receiveReg _ => true
  | _ => false

/-- The error code of the Cancelled condition (ctx.Err of a cancelled
context). -/
def contextCanceled : Nat := 1

/-- The error code of the SinkUnavailable condition raised by Start when
primitive.NewCeClient fails. -/
def sinkUnavailable : Nat := 2

/-- The trigger state relevant to the lifecycle claims: the mutex-guarded
state field, the last-activity timestamp, the sleep threshold, the queue
capacities and the configuration snapshot.  The random uuid identity and
the external collaborators are omitted. -/
structure Trigger where
  subscriptionID : Nat
  target : Nat
  sleepDuration : Int
  state : TriggerState
  lastActive : Int
  eventChCap : Nat
  sendChCap : Nat
  config : Config
deriving DecidableEq, Repr

/-- Start of trigger.go: constructing the ce client for the target may
fail, in which case the error is returned and nothing else happens;
otherwise the workers are spawned, the state is set to Running and
lastActive to now — unconditionally, whatever the previous state was. -/
def startOp (sinkOK : Bool) (now : Int) (t : Trigger) : Trigger × Option Nat :=
  if sinkOK then
    ({ t with state := TriggerState.running, lastActive := now }, none)
  else
    (t, some sinkUnavailable)

/-- Stop of trigger.go: when the state is already Stopped the call
returns at once; otherwise it cancels the workers, waits for them, closes
both channels and sets the state to Stopped. -/
def stopOp (t : Trigger) : Trigger :=
  if t.state = TriggerState.stopped then t
  else { t with state := TriggerState.stopped }

/-- One tick of runSleepWatch: under the state mutex, when the state is
Running it is set to Sleep if now minus lastActive exceeds the sleep
threshold, and (re)set to Running otherwise; in every other state the
tick does nothing. -/
def sleepTick (now : Int) (t : Trigger) : Trigger :=
  if t.state = TriggerState.running then
    if now - t.lastActive > t.sleepDuration then { t with state := TriggerState.sleep }
    else { t with state := TriggerState.running }
  else t

/-- GetState of trigger.go: a read of the state field under the lock. -/
def getState (t : Trigger) : TriggerState := t.state

/-- A subscription descriptor (primitive.Subscription): identity, target
sink address and filter rule set, each modelled as an opaque Nat. -/
structure Subscription where
  id : Nat
  sink : Nat
  filters : Nat
deriving DecidableEq, Repr

/-- Modelled from the spec: the default values that initConfig (file
config.go of package trigger, absent from src/) gives the configuration
fields; the spec fixes that every unset field receives a default but not
the numeric values, so representative positive constants are used. -/
def defaultFilterProcessSize : Nat := 2

/-- Modelled from the spec: default send-worker count (see
defaultFilterProcessSize). -/
def defaultSendProcessSize : Nat := 2

/-- Modelled from the spec: default queue capacity (see
defaultFilterProcessSize). -/
def defaultBufferSize : Nat := 1024

/-- Modelled from the spec: default maximum retry attempts (see
defaultFilterProcessSize). -/
def defaultMaxRetryTimes : Int := 3

/-- Modelled from the spec: default inter-retry delay (see
defaultFilterProcessSize). -/
def defaultRetryPeriod : Nat := 30

/-- Modelled from the spec: default per-attempt send timeout (see
defaultFilterProcessSize). -/
def defaultSendTimeOut : Nat := 100

/-- The zero value of Config, as produced by the Go composite literal
Config\x7b\x7d. -/
def emptyConfig : Config := ⟨0, 0, 0, 0, 0, 0⟩

/-- Modelled from the spec: initConfig of package trigger (config.go is
absent from src/).  All fields have defaults applied when unset, the Go
zero value standing for unset. -/
def initConfig (c : Config) : Config :=
  { filterProcessSize :=
      if c.filterProcessSize = 0 then defaultFilterProcessSize else c.filterProcessSize
    sendProcessSize :=
      if c.sendProcessSize = 0 then defaultSendProcessSize else c.sendProcessSize
    bufferSize := if c.bufferSize = 0 then defaultBufferSize else c.bufferSize
    maxRetryTimes := if c.maxRetryTimes = 0 then defaultMaxRetryTimes else c.maxRetryTimes
    retryPeriod := if c.retryPeriod = 0 then defaultRetryPeriod else c.retryPeriod
    sendTimeOut := if c.sendTimeOut = 0 then defaultSendTimeOut else c.sendTimeOut }

/-- NewTrigger of trigger.go: a nil config pointer is replaced by the
empty Config, initConfig is applied to the (shared) config value, and the
trigger is built with that defaulted configuration: state Created, sleep
threshold 30 seconds (30 abstract units here), and both channels made
with the defaulted BufferSize as capacity. -/
def NewTrigger (config : Option Config) (sub : Subscription) : Trigger :=
  let c0 := match config with
    | none => emptyConfig
    | some c => c
  let c := initConfig c0
  { subscriptionID := sub.id
    target := sub.sink
    sleepDuration := 30
    state := TriggerState.created
    lastActive := 0
    eventChCap := c.bufferSize
    sendChCap := c.bufferSize
    config := c }

/-- The sink responses seen by retrySendEvent when the caller context is
cancelled from attempt cancelFrom on: every such attempt's
WithTimeout-derived context is already done, so ceClient.Send returns at
once with the context error, a non-ACK rejection. -/
def cancelledSink (cancelFrom : Nat) (sink : Nat → AttemptResult) :
    Nat → AttemptResult :=
  fun k => if cancelFrom ≤ k then AttemptResult.reject contextCanceled else sink k

/-- Every pause in the list is followed by a later sink send, the shape
claimed by a pause occurring only between two attempts. -/
def pauseAlwaysBeforeSend : List Action → Bool
  | [] => true
  | a :: rest => (!isPause a || rest.any isSend) && pauseAlwaysBeforeSend rest

/-- The shape the retry trace actually has: a run of rejected sends each
immediately followed by one pause, possibly ended by one acknowledged
send with nothing after it. -/
def retryShape : List Action → Bool
  | [] => true
  | Action.sinkSend _ AttemptResult.ack :: rest => rest.isEmpty
  | Action.sinkSend _ (AttemptResult.reject _) :: Action.pause _ :: rest => retryShape rest
  | _ => false

example : retryShape (retrySendEvent ⟨1, 1, 0, 3, 50, 100⟩
    (fun _ => AttemptResult.reject 7)).1 = true := by decide

example : pauseAlwaysBeforeSend (retrySendEvent ⟨1, 1, 0, 1, 50, 100⟩
    (fun _ => AttemptResult.reject 7)).1 = false := by decide

/-- The retry loop never calls EventCommit. -/
theorem retrySendLoop_count_commit (sT rP : Nat) (sink : Nat → AttemptResult) :
    ∀ (rem rt : Nat) (le : Option Nat),
      (retrySendLoop sT rP sink rt rem le).1.countP isCommit = 0 := by
  intro rem
  induction rem with
  | zero => intro rt le; simp [retrySendLoop]
  | succ n ih =>
    intro rt le
    cases h : sink (rt + 1) with
    | ack => simp [retrySendLoop, h, isCommit]
    | reject e => simp [retrySendLoop, h, isCommit, ih]

/-- The retry loop never calls EventReceive. -/
theorem retrySendLoop_count_receive (sT rP : Nat) (sink : Nat → AttemptResult) :
    ∀ (rem rt : Nat) (le : Option Nat),
      (retrySendLoop sT rP sink rt rem le).1.countP isReceive = 0 := by
  intro rem
  induction rem with
  | zero => intro rt le; simp [retrySendLoop]
  | succ n ih =>
    intro rt le
    cases h : sink (rt + 1) with
    | ack => simp [retrySendLoop, h, isReceive]
    | reject e => simp [retrySendLoop, h, isReceive, ih]

/-- The retry loop makes at most as many sink calls as it has remaining
iterations. -/
theorem retrySendLoop_send_le (sT rP : Nat) (sink : Nat → AttemptResult) :
    ∀ (rem rt : Nat) (le : Option Nat),
      (retrySendLoop sT rP sink rt rem le).1.countP isSend ≤ rem := by
  intro rem
  induction rem with
  | zero => intro rt le; simp [retrySendLoop]
  | succ n ih =>
    intro rt le
    cases h : sink (rt + 1) with
    | ack => simp [retrySendLoop, h, isSend, isPause]
    | reject e =>
      have := ih (rt + 1) (some e)
      simp [retrySendLoop, h, isSend, isPause]
      omega

/-- The retry loop pauses exactly once per rejected attempt. -/
theorem retrySendLoop_pause_eq_reject (sT rP : Nat) (sink : Nat → AttemptResult) :
    ∀ (rem rt : Nat) (le : Option Nat),
      (retrySendLoop sT rP sink rt rem le).1.countP isPause =
        (retrySendLoop sT rP sink rt rem le).1.countP isRejectSend := by
  intro rem
  induction rem with
  | zero => intro rt le; simp [retrySendLoop]
  | succ n ih =>
    intro rt le
    cases h : sink (rt + 1) with
    | ack => simp [retrySendLoop, h, isPause, isRejectSend]
    | reject e => simp [retrySendLoop, h, isPause, isRejectSend, ih]

/-- Every sink call of the retry loop carries the configured per-attempt
timeout. -/
theorem retrySendLoop_send_timeout (sT rP : Nat) (sink : Nat → AttemptResult) :
    ∀ (rem rt : Nat) (le : Option Nat) (t : Nat) (r : AttemptResult),
      Action.sinkSend t r ∈ (retrySendLoop sT rP sink rt rem le).1 → t = sT := by
  intro rem
  induction rem with
  | zero => intro rt le t r hm; simp [retrySendLoop] at hm
  | succ n ih =>
    intro rt le t r hm
    cases h : sink (rt + 1) with
    | ack =>
      simp [retrySendLoop, h] at hm
      exact hm.1
    | reject e =>
      simp [retrySendLoop, h] at hm
      rcases hm with ⟨ht, _⟩ | hm
      · exact ht
      · exact ih (rt + 1) (some e) t r hm

/-- Every pause of the retry loop has the configured retry period as
duration. -/
theorem retrySendLoop_pause_duration (sT rP : Nat) (sink : Nat → AttemptResult) :
    ∀ (rem rt : Nat) (le : Option Nat) (d : Nat),
      Action.pause d ∈ (retrySendLoop sT rP sink rt rem le).1 → d = rP := by
  intro rem
  induction rem with
  | zero => intro rt le d hm; simp [retrySendLoop] at hm
  | succ n ih =>
    intro rt le d hm
    cases h : sink (rt + 1) with
    | ack => simp [retrySendLoop, h] at hm
    | reject e =>
      simp [retrySendLoop, h] at hm
      rcases hm with hd | hm
      · exact hd
      · exact ih (rt + 1) (some e) d hm

/-- The trace of the retry loop has the retryShape form: each rejected
send immediately followed by one pause, optionally ended by one
acknowledged send with nothing after it. -/
theorem retrySendLoop_retryShape (sT rP : Nat) (sink : Nat → AttemptResult) :
    ∀ (rem rt : Nat) (le : Option Nat),
      retryShape (retrySendLoop sT rP sink rt rem le).1 = true := by
  intro rem
  induction rem with
  | zero => intro rt le; simp [retrySendLoop, retryShape]
  | succ n ih =>
    intro rt le
    cases h : sink (rt + 1) with
    | ack => simp [retrySendLoop, h, retryShape]
    | reject e => simp [retrySendLoop, h, retryShape, ih]

/-- An empty retry trace only arises with zero remaining iterations, in
which case the threaded err is returned unchanged. -/
theorem retrySendLoop_nil (sT rP : Nat) (sink : Nat → AttemptResult)
    (rem rt : Nat) (le : Option Nat)
    (hn : (retrySendLoop sT rP sink rt rem le).1 = []) :
    rem = 0 ∧ (retrySendLoop sT rP sink rt rem le).2 = le := by
  cases rem with
  | zero => exact ⟨rfl, rfl⟩
  | succ n =>
    exfalso
    cases h : sink (rt + 1) with
    | ack => simp [retrySendLoop, h] at hn
    | reject e => simp [retrySendLoop, h] at hn

/-- When the retry loop returns nil, either it ran no iteration with a
nil err threaded in, or its last action is an acknowledged send: a
rejected attempt never ends the loop successfully. -/
theorem retrySendLoop_success_ack (sT rP : Nat) (sink : Nat → AttemptResult) :
    ∀ (rem rt : Nat) (le : Option Nat),
      (retrySendLoop sT rP sink rt rem le).2 = none →
      (retrySendLoop sT rP sink rt rem le).1 = [] ∨
        ∃ t, (retrySendLoop sT rP sink rt rem le).1.getLast? =
          some (Action.sinkSend t AttemptResult.ack) := by
  intro rem
  induction rem with
  | zero => intro rt le _; exact Or.inl rfl
  | succ n ih =>
    intro rt le hres
    cases h : sink (rt + 1) with
    | ack =>
      refine Or.inr ⟨sT, ?_⟩
      simp [retrySendLoop, h]
    | reject e =>
      have hres2 : (retrySendLoop sT rP sink (rt + 1) n (some e)).2 = none := by
        simpa [retrySendLoop, h] using hres
      rcases ih (rt + 1) (some e) hres2 with hnil | ⟨t, hlast⟩
      · rcases retrySendLoop_nil sT rP sink n (rt + 1) (some e) hnil with ⟨_, habs⟩
        rw [habs] at hres2
        simp at hres2
      · refine Or.inr ⟨t, ?_⟩
        cases hq : (retrySendLoop sT rP sink (rt + 1) n (some e)).1 with
        | nil => rw [hq] at hlast; simp at hlast
        | cons c cs =>
          rw [hq] at hlast
          simp [retrySendLoop, h, hq, List.getLast?_cons_cons]
          exact hlast

/-- When no attempt is ever acknowledged the retry loop uses up all its
iterations, one send and one pause each. -/
theorem retrySendLoop_allReject_counts (sT rP : Nat) (sink : Nat → AttemptResult)
    (hall : ∀ k, sink k ≠ AttemptResult.ack) :
    ∀ (rem rt : Nat) (le : Option Nat),
      (retrySendLoop sT rP sink rt rem le).1.countP isSend = rem ∧
      (retrySendLoop sT rP sink rt rem le).1.countP isPause = rem := by
  intro rem
  induction rem with
  | zero => intro rt le; simp [retrySendLoop]
  | succ n ih =>
    intro rt le
    cases h : sink (rt + 1) with
    | ack => exact absurd h (hall (rt + 1))
    | reject e =>
      have := ih (rt + 1) (some e)
      simp [retrySendLoop, h, isSend, isPause]
      omega

/-- With a non-nil err threaded in and no acknowledgment ever, the retry
loop returns a non-nil error. -/
theorem retrySendLoop_allReject_result (sT rP : Nat) (sink : Nat → AttemptResult)
    (hall : ∀ k, sink k ≠ AttemptResult.ack) :
    ∀ (rem rt : Nat) (e0 : Nat),
      (retrySendLoop sT rP sink rt rem (some e0)).2 ≠ none := by
  intro rem
  induction rem with
  | zero => intro rt e0; simp [retrySendLoop]
  | succ n ih =>
    intro rt e0
    cases h : sink (rt + 1) with
    | ack => exact absurd h (hall (rt + 1))
    | reject e => simpa [retrySendLoop, h] using ih (rt + 1) e

/-- Appending a single element makes it the last. -/
theorem lastOfAppendSingleton {α : Type} (l : List α) (x : α) :
    (l ++ [x]).getLast? = some x := by
  induction l with
  | nil => rfl
  | cons a as ih =>
    cases as with
    | nil => rfl
    | cons b bs => simpa using ih

/-- retrySendEvent never calls EventCommit. -/
theorem retrySendEvent_count_commit (cfg : Config) (sink : Nat → AttemptResult) :
    (retrySendEvent cfg sink).1.countP isCommit = 0 :=
  retrySendLoop_count_commit cfg.sendTimeOut cfg.retryPeriod sink cfg.maxRetryTimes.toNat 0 none

/-- retrySendEvent never calls EventReceive. -/
theorem retrySendEvent_count_receive (cfg : Config) (sink : Nat → AttemptResult) :
    (retrySendEvent cfg sink).1.countP isReceive = 0 :=
  retrySendLoop_count_receive cfg.sendTimeOut cfg.retryPeriod sink cfg.maxRetryTimes.toNat 0 none

/-- The send worker commits exactly once per dequeued event, whatever the
retry loop returned. -/
theorem runEventSendOne_commit_count (cfg : Config) (sink : Nat → AttemptResult)
    (ev : EventRecord) : (runEventSendOne cfg sink ev).countP isCommit = 1 := by
  have h1 := retrySendEvent_count_commit cfg sink
  simp only [runEventSendOne]
  cases hres : (retrySendEvent cfg sink).2 <;>
    simp [List.countP_append, h1, isCommit, hres]

/-- The send worker never registers a receive. -/
theorem runEventSendOne_receive_count (cfg : Config) (sink : Nat → AttemptResult)
    (ev : EventRecord) : (runEventSendOne cfg sink ev).countP isReceive = 0 := by
  have h1 := retrySendEvent_count_receive cfg sink
  simp only [runEventSendOne]
  cases hres : (retrySendEvent cfg sink).2 <;>
    simp [List.countP_append, h1, isReceive, hres]

/-- The commit of the dequeued event position is in the send worker's
trace. -/
theorem runEventSendOne_mem_commit (cfg : Config) (sink : Nat → AttemptResult)
    (ev : EventRecord) : Action.commit ev.offsetInfo ∈ runEventSendOne cfg sink ev := by
  simp only [runEventSendOne]
  cases hres : (retrySendEvent cfg sink).2 <;> simp [hres]

/-- Step counts are preserved by interleaving: a merge of two goroutine
traces counts any predicate as the sum of the two components' counts. -/
theorem isMerge_countP (f : Step → Bool) :
    ∀ (tr xs ys : List Step), isMerge xs ys tr = true →
      tr.countP f = xs.countP f + ys.countP f := by
  intro tr
  induction tr with
  | nil =>
    intro xs ys h
    cases xs with
    | cons x xs2 => simp [isMerge] at h
    | nil =>
      cases ys with
      | cons y ys2 => simp [isMerge] at h
      | nil => simp
  | cons t ts ih =>
    intro xs ys h
    cases xs with
    | nil =>
      cases ys with
      | nil => simp [isMerge] at h
      | cons y ys2 =>
        simp [isMerge] at h
        rcases h with ⟨hy, hm⟩
        subst hy
        have hrec := ih [] ys2 hm
        simp only [List.countP_cons] at hrec ⊢
        omega
    | cons x xs2 =>
      cases ys with
      | nil =>
        simp [isMerge] at h
        rcases h with ⟨hx, hm⟩
        subst hx
        have hrec := ih xs2 [] hm
        simp only [List.countP_cons] at hrec ⊢
        omega
      | cons y ys2 =>
        simp [isMerge] at h
        rcases h with ⟨hx, hm⟩ | ⟨hy, hm⟩
        · subst hx
          have hrec := ih xs2 (y :: ys2) hm
          simp only [List.countP_cons] at hrec ⊢
          omega
        · subst hy
          have hrec := ih (x :: xs2) ys2 hm
          simp only [List.countP_cons] at hrec ⊢
          omega

/-- Every valid execution of the accepted-event, filter-reject program
performs exactly one EventCommit and exactly one EventReceive: only the
order of the two is left open by the code. -/
theorem validExecution_counts (ev : EventRecord) (tr : List Step)
    (h : validExecution ev tr = true) :
    tr.countP isCommitStep = 1 ∧ tr.countP isReceiveStep = 1 := by
  have h2 : isMerge (producerSteps ev) (filterRejectSteps ev) tr = true ∧
      chanOrdered tr 0 = true := by
    simpa [validExecution, Bool.and_eq_true] using h
  rcases h2 with ⟨hm, _⟩
  constructor
  · have := isMerge_countP isCommitStep tr (producerSteps ev) (filterRejectSteps ev) hm
    simpa [producerSteps, filterRejectSteps, isCommitStep] using this
  · have := isMerge_countP isReceiveStep tr (producerSteps ev) (filterRejectSteps ev) hm
    simpa [producerSteps, filterRejectSteps, isReceiveStep] using this

/-- C1: the code violates the claimed receive-before-commit ordering.
EventArrived performs the channel send (line 85) before calling
EventReceive (line 86), with no synchronization against the workers, so
the filter worker may dequeue and reach EventCommit (line 129) in
between: racyTrace is a valid interleaving of the two goroutines in
which the EventCommit of the event's position strictly precedes its
EventReceive registration. -/
theorem C1_commit_before_receive_interleaving :
    validExecution ⟨5, ⟨1, 2⟩⟩ racyTrace = true ∧
    (∃ i j : Fin racyTrace.length, i < j ∧
      racyTrace.get i = Step.commitReg ⟨1, 2⟩ ∧
      racyTrace.get j = Step.receiveReg ⟨1, 2⟩) := by
  decide

/-- C2: for every event dequeued by a send worker, after the retry loop
finishes the event position is committed — exactly once, as the last
action — whether the loop ended in an acknowledgment or with every
attempt rejected; in the latter case the non-nil error is logged, and the
worker raises nothing to any caller (its trace is its whole effect). -/
theorem C2_send_worker_always_commits (cfg : Config) (sink : Nat → AttemptResult)
    (ev : EventRecord) :
    (runEventSendOne cfg sink ev).getLast? = some (Action.commit ev.offsetInfo) ∧
    (runEventSendOne cfg sink ev).countP isCommit = 1 ∧
    (∀ e, (retrySendEvent cfg sink).2 = some e →
      Action.logError e ∈ runEventSendOne cfg sink ev) := by
  refine ⟨?_, runEventSendOne_commit_count cfg sink ev, ?_⟩
  · simp only [runEventSendOne]
    exact lastOfAppendSingleton _ _
  · intro e he
    simp only [runEventSendOne]
    rw [he]
    simp

/-- Witness for C2 at a concrete always-rejecting sink: the returned
error 7 is logged. -/
theorem C2_send_worker_always_commits_witness :
    Action.logError 7 ∈ runEventSendOne ⟨1, 1, 0, 3, 50, 100⟩
      (fun _ => AttemptResult.reject 7) ⟨0, ⟨0, 0⟩⟩ :=
  (C2_send_worker_always_commits ⟨1, 1, 0, 3, 50, 100⟩
    (fun _ => AttemptResult.reject 7) ⟨0, ⟨0, 0⟩⟩).2.2 7 (by decide)

/-- C3 counterexample: with MaxRetryTimes = 1 and a rejecting sink, the
single attempt is followed by a RetryPeriod pause, so a pause does occur
after the final attempt, not only between two attempts. -/
theorem C3_pause_after_final_attempt :
    pauseAlwaysBeforeSend (retrySendEvent ⟨1, 1, 0, 1, 50, 100⟩
      (fun _ => AttemptResult.reject 7)).1 = false ∧
    (retrySendEvent ⟨1, 1, 0, 1, 50, 100⟩ (fun _ => AttemptResult.reject 7)).1 =
      [Action.sinkSend 100 (AttemptResult.reject 7), Action.pause 50] := by
  decide

/-- C3 amended: the retry loop invokes the sink at most MaxRetryTimes
times, each attempt under the SendTimeOut per-attempt timeout; every
pause lasts RetryPeriod and immediately follows a rejected attempt
(retryShape), so consecutive attempts are separated by exactly one pause
but a pause also follows the final attempt when it is rejected; and a
rejected attempt never ends the loop successfully: a nil result means no
iteration ran or the last action was an acknowledged send. -/
theorem C3_retry_loop_amended (cfg : Config) (sink : Nat → AttemptResult) :
    (retrySendEvent cfg sink).1.countP isSend ≤ cfg.maxRetryTimes.toNat ∧
    (∀ t r, Action.sinkSend t r ∈ (retrySendEvent cfg sink).1 → t = cfg.sendTimeOut) ∧
    (∀ d, Action.pause d ∈ (retrySendEvent cfg sink).1 → d = cfg.retryPeriod) ∧
    retryShape (retrySendEvent cfg sink).1 = true ∧
    ((retrySendEvent cfg sink).2 = none →
      (retrySendEvent cfg sink).1 = [] ∨
        ∃ t, (retrySendEvent cfg sink).1.getLast? =
          some (Action.sinkSend t AttemptResult.ack)) :=
  ⟨retrySendLoop_send_le _ _ _ _ _ _,
   fun t r => retrySendLoop_send_timeout _ _ _ _ _ _ t r,
   fun d => retrySendLoop_pause_duration _ _ _ _ _ _ d,
   retrySendLoop_retryShape _ _ _ _ _ _,
   retrySendLoop_success_ack _ _ _ _ _ _⟩

/-- Witness for C3 amended at a sink acknowledging on the second attempt:
the trace has the retry shape and the observed pause is the configured
RetryPeriod. -/
theorem C3_retry_loop_amended_witness :
    retryShape (retrySendEvent ⟨1, 1, 0, 3, 50, 100⟩
      (fun k => if k = 2 then AttemptResult.ack else AttemptResult.reject 7)).1 = true ∧
    50 = (⟨1, 1, 0, 3, 50, 100⟩ : Config).retryPeriod :=
  ⟨(C3_retry_loop_amended ⟨1, 1, 0, 3, 50, 100⟩
      (fun k => if k = 2 then AttemptResult.ack else AttemptResult.reject 7)).2.2.2.1,
   (C3_retry_loop_amended ⟨1, 1, 0, 3, 50, 100⟩
      (fun k => if k = 2 then AttemptResult.ack else AttemptResult.reject 7)).2.2.1
     50 (by decide)⟩

/-- True when the filter predicate passes the event. -/
def passes (f : EventRecord → FilterResult) (e : EventRecord) : Bool :=
  match f e with
  | FilterResult.passFilter => true
  | FilterResult.failFilter => false

/-- C4: the filter worker forwards exactly the events whose predicate
passes, unchanged and in order; each failing event's position is
committed (its commit, and nothing else, enters the trace at that point),
and the filter stage makes zero sink send attempts. -/
theorem C4_filter_stage (f : EventRecord → FilterResult) (evs : List EventRecord) :
    (runEventProcess f evs).2 = evs.filter (passes f) ∧
    (runEventProcess f evs).1 =
      (evs.filter (fun e => !passes f e)).map (fun e => Action.commit e.offsetInfo) ∧
    (runEventProcess f evs).1.countP isSend = 0 := by
  induction evs with
  | nil => exact ⟨rfl, rfl, rfl⟩
  | cons ev rest ih =>
    rcases ih with ⟨ih1, ih2, ih3⟩
    cases hf : f ev with
    | failFilter =>
      refine ⟨?_, ?_, ?_⟩ <;>
        simp [runEventProcess, hf, passes, List.filter_cons, ih1, ih2, ih3, isSend]
    | passFilter =>
      refine ⟨?_, ?_, ?_⟩ <;>
        simp [runEventProcess, hf, passes, List.filter_cons, ih1, ih2, ih3, isSend]

/-- C5: EventArrived with space in the intake buffer enqueues the event
and registers exactly its receive position; with a full buffer and a
cancelled context it fails with the context error having enqueued nothing
and registered nothing; a Cancelled outcome only arises from a full
buffer with a cancelled context; and a receive registration only arises
together with the enqueue of exactly this event. -/
theorem C5_eventArrived_spec (q : List EventRecord) (cap : Nat) (ctxErr : Option Nat)
    (ev : EventRecord) :
    (q.length < cap →
      eventArrived q cap ctxErr ev =
        ArrivedResult.enqueued (q ++ [ev]) [Action.receive ev.offsetInfo]) ∧
    (¬ q.length < cap → ∀ e, ctxErr = some e →
      eventArrived q cap ctxErr ev = ArrivedResult.cancelled e) ∧
    (∀ e, eventArrived q cap ctxErr ev = ArrivedResult.cancelled e →
      ¬ q.length < cap ∧ ctxErr = some e) ∧
    (∀ q2 acts, eventArrived q cap ctxErr ev = ArrivedResult.enqueued q2 acts →
      q2 = q ++ [ev] ∧ acts = [Action.receive ev.offsetInfo]) := by
  by_cases h : q.length < cap
  · refine ⟨fun _ => by simp [eventArrived, h], fun habs => absurd h habs, ?_, ?_⟩
    · intro e he
      simp [eventArrived, h] at he
    · intro q2 acts he
      simp [eventArrived, h] at he
      exact ⟨he.1.symm, he.2.symm⟩
  · refine ⟨fun habs => absurd habs h, ?_, ?_, ?_⟩
    · intro habs e he
      simp [eventArrived, h, he]
    · intro e he
      cases hc : ctxErr with
      | none => simp [eventArrived, h, hc] at he
      | some e2 =>
        simp [eventArrived, h, hc] at he
        exact ⟨h, by rw [he]⟩
    · intro q2 acts he
      cases hc : ctxErr with
      | none => simp [eventArrived, h, hc] at he
      | some e2 => simp [eventArrived, h, hc] at he

/-- Witness for C5: an empty buffer of capacity one accepts the event and
registers its position. -/
theorem C5_eventArrived_spec_witness :
    eventArrived [] 1 none ⟨5, ⟨1, 2⟩⟩ =
      ArrivedResult.enqueued [⟨5, ⟨1, 2⟩⟩] [Action.receive ⟨1, 2⟩] :=
  (C5_eventArrived_spec [] 1 none ⟨5, ⟨1, 2⟩⟩).1 (by decide)

/-- C6 counterexample: with MaxRetryTimes = 2 and the caller context
cancelled before the first attempt, the loop still invokes the sink twice
and pauses twice — it does not exit early, though the returned error is
the context error, not a fabricated success. -/
theorem C6_cancelled_ctx_attempts_continue :
    (retrySendEvent ⟨1, 1, 0, 2, 50, 100⟩
      (cancelledSink 1 (fun _ => AttemptResult.ack))).1.countP isSend = 2 ∧
    (retrySendEvent ⟨1, 1, 0, 2, 50, 100⟩
      (cancelledSink 1 (fun _ => AttemptResult.ack))).1.countP isPause = 2 ∧
    (retrySendEvent ⟨1, 1, 0, 2, 50, 100⟩
      (cancelledSink 1 (fun _ => AttemptResult.ack))).2 = some contextCanceled := by
  decide

/-- C6 amended: when the caller's context is cancelled from attempt
cancelFrom on (every later Send returning the context error at once) and
no earlier attempt was acknowledged, the loop does not exit early: it
still makes all MaxRetryTimes sink invocations with a pause after each,
and returns a non-nil error — it never reports a fabricated success. -/
theorem C6_cancelled_ctx_amended (cfg : Config) (sink : Nat → AttemptResult)
    (cancelFrom : Nat) (hm : 1 ≤ cfg.maxRetryTimes)
    (hnoack : ∀ j, j < cancelFrom → sink j ≠ AttemptResult.ack) :
    (retrySendEvent cfg (cancelledSink cancelFrom sink)).1.countP isSend =
      cfg.maxRetryTimes.toNat ∧
    (retrySendEvent cfg (cancelledSink cancelFrom sink)).1.countP isPause =
      cfg.maxRetryTimes.toNat ∧
    (retrySendEvent cfg (cancelledSink cancelFrom sink)).2 ≠ none := by
  have hall : ∀ k, cancelledSink cancelFrom sink k ≠ AttemptResult.ack := by
    intro k
    by_cases h : cancelFrom ≤ k
    · simp [cancelledSink, h]
    · simpa [cancelledSink, h] using hnoack k (by omega)
  obtain ⟨n, hn⟩ : ∃ n, cfg.maxRetryTimes.toNat = n + 1 :=
    ⟨cfg.maxRetryTimes.toNat - 1, by omega⟩
  have hcounts := retrySendLoop_allReject_counts cfg.sendTimeOut cfg.retryPeriod
    (cancelledSink cancelFrom sink) hall cfg.maxRetryTimes.toNat 0 none
  refine ⟨hcounts.1, hcounts.2, ?_⟩
  show (retrySendLoop cfg.sendTimeOut cfg.retryPeriod (cancelledSink cancelFrom sink)
    0 cfg.maxRetryTimes.toNat none).2 ≠ none
  rw [hn]
  cases hk : cancelledSink cancelFrom sink 1 with
  | ack => exact absurd hk (hall 1)
  | reject e =>
    simpa [retrySendLoop, hk] using
      retrySendLoop_allReject_result cfg.sendTimeOut cfg.retryPeriod
        (cancelledSink cancelFrom sink) hall n 1 e

/-- Witness for C6 amended: context cancelled before attempt one with
MaxRetryTimes = 2 yields two sink invocations. -/
theorem C6_cancelled_ctx_amended_witness :
    (retrySendEvent ⟨1, 1, 0, 2, 50, 100⟩
      (cancelledSink 1 (fun _ => AttemptResult.reject 9))).1.countP isSend =
      (⟨1, 1, 0, 2, 50, 100⟩ : Config).maxRetryTimes.toNat :=
  (C6_cancelled_ctx_amended ⟨1, 1, 0, 2, 50, 100⟩ (fun _ => AttemptResult.reject 9) 1
    (by decide) (fun j _ => by simp)).1

/-- A concrete trigger whose state is Sleep, idle for no time at all. -/
def trigSleep : Trigger := ⟨0, 0, 30, TriggerState.sleep, 0, 1, 1, emptyConfig⟩

/-- A concrete trigger whose state is Running, last active at time 0. -/
def trigRun : Trigger := ⟨0, 0, 30, TriggerState.running, 0, 1, 1, emptyConfig⟩

/-- A concrete trigger whose state is Stopped. -/
def trigStopped : Trigger := ⟨0, 0, 30, TriggerState.stopped, 0, 1, 1, emptyConfig⟩

/-- C7 counterexample: a watcher tick on a trigger in Sleep with elapsed
time 0, well within the 30-unit threshold, leaves the state Sleep — the
tick never flips Sleep back to Running. -/
theorem C7_sleep_never_flips_back :
    sleepTick 0 trigSleep = trigSleep ∧
    (sleepTick 0 trigSleep).state ≠ TriggerState.running := by
  decide

/-- C7 amended: a watcher tick acts only in state Running: it sets Sleep
when the elapsed time since lastActive exceeds the threshold and keeps
Running otherwise; in every other state, Sleep included, the tick changes
nothing — the Sleep-to-Running flip never occurs. -/
theorem C7_tick_amended (t : Trigger) (now : Int) :
    (t.state = TriggerState.running → now - t.lastActive > t.sleepDuration →
      (sleepTick now t).state = TriggerState.sleep) ∧
    (t.state = TriggerState.running → ¬ now - t.lastActive > t.sleepDuration →
      (sleepTick now t).state = TriggerState.running) ∧
    (t.state ≠ TriggerState.running → sleepTick now t = t) := by
  refine ⟨?_, ?_, ?_⟩
  · intro hs he
    simp [sleepTick, hs, he]
  · intro hs he
    simp [sleepTick, hs, he]
  · intro hs
    simp [sleepTick, hs]

/-- Witness for C7 amended: a Running trigger idle for 31 of 30 units is
put to Sleep by the tick. -/
theorem C7_tick_amended_witness :
    (sleepTick 31 trigRun).state = TriggerState.sleep :=
  (C7_tick_amended trigRun 31).1 rfl (by decide)

/-- C8 counterexample: Start on a Stopped trigger, with the sink client
constructing successfully, sets the state to Running — Stopped is not
terminal under Start. -/
theorem C8_start_revives_stopped :
    (startOp true 5 trigStopped).1.state = TriggerState.running ∧
    TriggerState.running ≠ TriggerState.stopped := by
  decide

/-- C8 amended: Stop always leaves state Stopped and is a no-op when the
state is already Stopped; a watcher tick changes neither Stopped nor
Destroyed; Start with a failing sink-client construction returns the
SinkUnavailable error leaving the trigger untouched; but Start with a
successful construction sets the state to Running from any state —
including Stopped and Destroyed, which are therefore not terminal under
Start (and Stop moves Destroyed to Stopped). -/
theorem C8_lifecycle_amended (t : Trigger) (now : Int) :
    (stopOp t).state = TriggerState.stopped ∧
    (t.state = TriggerState.stopped → stopOp t = t) ∧
    (t.state = TriggerState.stopped → sleepTick now t = t) ∧
    (t.state = TriggerState.destroyed → sleepTick now t = t) ∧
    startOp false now t = (t, some sinkUnavailable) ∧
    (startOp true now t).1.state = TriggerState.running := by
  refine ⟨?_, ?_, ?_, ?_, ?_, ?_⟩
  · by_cases hs : t.state = TriggerState.stopped <;> simp [stopOp, hs]
  · intro hs; simp [stopOp, hs]
  · intro hs; simp [sleepTick, hs]
  · intro hs; simp [sleepTick, hs]
  · simp [startOp]
  · simp [startOp]

/-- Witness for C8 amended: Stop on an already Stopped trigger is a
no-op. -/
theorem C8_lifecycle_amended_witness :
    stopOp trigStopped = trigStopped :=
  (C8_lifecycle_amended trigStopped 0).2.1 rfl

/-- C9: NewTrigger with a nil configuration pointer behaves exactly as
with an empty configuration: the defaults are applied, the trigger is
returned in the Created state, and both queues get the defaulted
capacity. -/
theorem C9_nil_config_defaults (sub : Subscription) :
    NewTrigger none sub = NewTrigger (some emptyConfig) sub ∧
    (NewTrigger none sub).state = TriggerState.created ∧
    (NewTrigger none sub).config = initConfig emptyConfig ∧
    (NewTrigger none sub).eventChCap = defaultBufferSize ∧
    (NewTrigger none sub).sendChCap = defaultBufferSize :=
  ⟨rfl, rfl, rfl, rfl, rfl⟩

/-- C10: with MaxRetryTimes zero or negative the retry loop makes no sink
invocation and returns nil, so the send worker logs nothing and the
event's trace is the bare commit of its position. -/
theorem C10_nonpositive_retry_zero_attempts (cfg : Config) (sink : Nat → AttemptResult)
    (ev : EventRecord) (h : cfg.maxRetryTimes ≤ 0) :
    retrySendEvent cfg sink = ([], none) ∧
    runEventSendOne cfg sink ev = [Action.commit ev.offsetInfo] := by
  have h0 : cfg.maxRetryTimes.toNat = 0 := by omega
  constructor
  · simp [retrySendEvent, h0, retrySendLoop]
  · simp [runEventSendOne, retrySendEvent, h0, retrySendLoop]

/-- Witness for C10: MaxRetryTimes = -1 with an always-rejecting sink
yields the bare commit trace. -/
theorem C10_nonpositive_retry_zero_attempts_witness :
    runEventSendOne ⟨1, 1, 0, -1, 50, 100⟩ (fun _ => AttemptResult.reject 7) ⟨0, ⟨0, 0⟩⟩ =
      [Action.commit ⟨0, 0⟩] :=
  (C10_nonpositive_retry_zero_attempts ⟨1, 1, 0, -1, 50, 100⟩
    (fun _ => AttemptResult.reject 7) ⟨0, ⟨0, 0⟩⟩ (by decide)).2

end Vanus
